import Mathlib

/-!
Verification of the KenzApp landing-page signup-intake workflow.

The development shallowly embeds two components:

* the Signup Ledger Service (`src/api/waitlist.php`): a single-request
  handler that validates an email, deduplicates it against a CSV ledger
  file, appends a row, and reports a waitlist position;
* the Client Intake Widget's `submitToWaitlist` operation
  (the waitlist JavaScript module): a fetch to the service with a
  local-storage demo fallback on any fetch/HTTP failure.

PHP's `filter_var(..., FILTER_VALIDATE_EMAIL)` and
`filter_var(..., FILTER_VALIDATE_IP)` are opaque library predicates; the
handler is parameterised over them (`Filters`), and theorems hold for
every choice of predicates.  Concrete witnesses instantiate them with
simple executable stand-ins (`simpleValidEmail`, `simpleValidIp`) whose
verdicts on the concrete inputs used agree with PHP's filters.
-/

/-- The character class PHP's `trim` strips by default:
space, tab, newline, carriage return, NUL and vertical tab. -/
def phpTrimChar (c : Char) : Bool :=
  c = ' ' || c = '\t' || c = '\n' || c = '\r' || c = Char.ofNat 0 || c = Char.ofNat 11

/-- PHP `trim($s)`: strip `phpTrimChar` characters from both ends. -/
def phpTrim (s : String) : String :=
  String.mk (((s.data.dropWhile phpTrimChar).reverse.dropWhile phpTrimChar).reverse)

/-- The characters PHP's `FILTER_SANITIZE_EMAIL` keeps: ASCII letters,
digits, and the listed specials (apostrophe, backtick and braces are
spelled via their code points). -/
def emailAllowedChar (c : Char) : Bool :=
  (c ≥ 'a' && c ≤ 'z') || (c ≥ 'A' && c ≤ 'Z') || (c ≥ '0' && c ≤ '9') ||
  c = '!' || c = '#' || c = '$' || c = '%' || c = '&' || c = Char.ofNat 39 ||
  c = '*' || c = '+' || c = '-' || c = '=' || c = '?' || c = '^' || c = '_' ||
  c = Char.ofNat 96 || c = Char.ofNat 123 || c = '|' || c = Char.ofNat 125 ||
  c = '~' || c = '@' || c = '.' || c = '[' || c = ']'

/-- PHP `filter_var($s, FILTER_SANITIZE_EMAIL)`: delete every character
outside the allowed class. -/
def sanitizeEmail (s : String) : String :=
  String.mk (s.data.filter emailAllowedChar)

/-- `$email = filter_var(trim($input['email']), FILTER_SANITIZE_EMAIL)`. -/
def normalizeEmail (s : String) : String :=
  sanitizeEmail (phpTrim s)

/-- The opaque PHP validation filters the handler consults. -/
structure Filters where
  validEmail : String → Bool
  validIp : String → Bool

/-- The JSON request body, as far as the handler reads it:
`$input['email']` and `$input['source']`.  `none` at the payload level
models an absent or unparseable body (`!$input`). -/
structure Payload where
  email : Option String
  source : Option String
  deriving Repr, DecidableEq

/-- Transport-level inputs of one request: `$_SERVER['REQUEST_METHOD']`,
the decoded body, `HTTP_USER_AGENT`, `HTTP_X_FORWARDED_FOR`,
`REMOTE_ADDR`, and the value `date('Y-m-d H:i:s')` returns. -/
structure Env where
  method : String
  payload : Option Payload
  userAgent : Option String
  xForwardedFor : Option String
  remoteAddr : Option String
  now : String
  deriving Repr, DecidableEq

/-- The CSV ledger file: its parsed rows (header row included when one
has been written) and the byte size `filesize` reports. -/
structure LedgerFile where
  rows : List (List String)
  byteSize : Nat
  deriving Repr, DecidableEq

/-- The JSON body the handler echoes plus `http_response_code`.
`success = none` models a response with no body (the OPTIONS branch). -/
structure Response where
  status : Nat := 200
  success : Option Bool := none
  message : Option String := none
  alreadyExists : Option Bool := none
  waitlistPosition : Option Nat := none
  timestamp : Option String := none
  deriving Repr, DecidableEq

/-- What one invocation of the handler produces: the response, the
ledger state afterwards (`none` = file still absent), and the
`error_log` lines written. -/
structure Outcome where
  response : Response
  state : Option LedgerFile
  logs : List String
  deriving Repr, DecidableEq

/-- `$maxFileSize = 10 * 1024 * 1024`. -/
def maxFileSize : Nat := 10 * 1024 * 1024

/-- The header row `fputcsv` writes into an empty file. -/
def headerRow : List String :=
  ["email", "timestamp", "source", "ip_address", "user_agent"]

/-- The characters that make `fputcsv` enclose a field in quotes: the
delimiter, the enclosure, CR, LF, tab and space. -/
def csvSpecialChar (c : Char) : Bool :=
  c = ',' || c = '"' || c = '\n' || c = '\r' || c = '\t' || c = ' '

/-- One field as `fputcsv` writes it: enclosed in double quotes (with
inner quotes doubled) when it contains a special character; bare
otherwise. -/
def csvField (s : String) : String :=
  if s.data.any csvSpecialChar then
    "\"" ++ String.mk (s.data.flatMap (fun c => if c = '"' then ['"', '"'] else [c])) ++ "\""
  else s

/-- One CSV record as `fputcsv` writes it: fields joined by the
delimiter, a terminating newline.  A field containing a newline is
written as a quoted field spanning several physical lines of the
file. -/
def csvLine : List String → String
  | [] => "\n"
  | [f] => csvField f ++ "\n"
  | f :: rest => csvField f ++ "," ++ csvLine rest

/-- Split a character list at every occurrence of a separator, PHP
`explode` style: the result is never empty and concatenating it with
the separator restores the input. -/
def splitOnChar (sep : Char) : List Char → List (List Char)
  | [] => [[]]
  | c :: rest =>
    if c = sep then
      [] :: splitOnChar sep rest
    else
      match splitOnChar sep rest with
      | [] => [[c]]
      | piece :: pieces => (c :: piece) :: pieces

/-- PHP `explode($sep, $s)` for a one-character separator. -/
def explodeChar (sep : Char) (s : String) : List String :=
  (splitOnChar sep s.data).map String.mk

/-- `$ipAddress`: `HTTP_X_FORWARDED_FOR ?? REMOTE_ADDR ?? ''`, split at
commas keeping the first entry (`explode(',', $ipAddress)[0]`),
trimmed; kept when the IP filter accepts it, otherwise the sentinel. -/
def clientIp (fl : Filters) (xff remoteAddr : Option String) : String :=
  let raw := xff.getD (remoteAddr.getD "")
  let first := (explodeChar ',' raw).headD ""
  let t := phpTrim first
  if fl.validIp t then t else "unknown"

/-- The remainder of a first CSV field read outside quotes: everything
up to the delimiter (quotes in mid-field stay literal). -/
def csvUntilComma : List Char → List Char
  | [] => []
  | c :: rest => if c = ',' then [] else c :: csvUntilComma rest

/-- Inside a quoted first CSV field, as `str_getcsv` reads it: a
doubled quote is a literal quote; the backslash escape keeps itself
and the next character; a closing quote switches to collecting any
stray characters up to the delimiter; end of input closes the field. -/
def csvQuoted : List Char → List Char
  | [] => []
  | c :: rest =>
    if c = '\\' then
      match rest with
      | [] => ['\\']
      | d :: rest2 => '\\' :: d :: csvQuoted rest2
    else if c = '"' then
      match rest with
      | '"' :: rest2 => '"' :: csvQuoted rest2
      | rest2 => csvUntilComma rest2
    else
      c :: csvQuoted rest

/-- The first CSV field of one physical line, as `str_getcsv($line)[0]`
computes it: leading spaces and tabs are skipped when they precede an
opening quote; otherwise the field is the text up to the first
delimiter. -/
def csvParseField0 (cs : List Char) : List Char :=
  match cs.dropWhile (fun c => c = ' ' || c = '\t') with
  | c :: inner => if c = '"' then csvQuoted inner else csvUntilComma cs
  | [] => csvUntilComma cs

/-- `str_getcsv` applied to one physical line of `file($csvFile)`: a
blank line parses to a single null field, so `isset($row[0])` fails
(`none`); otherwise `$row[0]` is the parsed first field. -/
def csvFirstField (l : String) : Option String :=
  if l = "" then none
  else some (String.mk (csvParseField0 l.data))

/-- The exact content of the ledger file: the concatenation of each
appended record's `fputcsv` output. -/
def ledgerContent : List (List String) → String
  | [] => ""
  | row :: rest => csvLine row ++ ledgerContent rest

/-- The physical lines of one record's `fputcsv` output: its text
split at newlines; the terminating newline contributes no extra
line. -/
def recordLines (row : List String) : List String :=
  (explodeChar '\n' (csvLine row)).dropLast

/-- The physical lines of the ledger file, as `file($csvFile)` returns
them: the content split at newlines, without the empty piece after the
final newline. -/
def fileLines (rows : List (List String)) : List String :=
  (explodeChar '\n' (ledgerContent rows)).dropLast

/-- Whether the duplicate scan finds the email.  The code runs
`array_map('str_getcsv', file($csvFile))`, parsing every physical line
separately — continuation-line fragments of newline-bearing fields
included — and compares `isset($row[0]) && $row[0] === $email`
literally.  A missing file has no lines to match. -/
def emailStored (st : Option LedgerFile) (email : String) : Bool :=
  match st with
  | none => false
  | some f => (fileLines f.rows).any (fun l => csvFirstField l = some email)

/-- The parsed rows of the ledger file; none when the file is absent. -/
def fileRows (st : Option LedgerFile) : List (List String) :=
  match st with
  | none => []
  | some f => f.rows

/-- The byte size of the ledger file; an absent file never trips the
size check, which sits inside the `file_exists` branch. -/
def fileSize (st : Option LedgerFile) : Nat :=
  match st with
  | none => 0
  | some f => f.byteSize

/-- The early-exit response for an email already present in the ledger:
success with `alreadyExists`, no position, no timestamp, no write. -/
def dupOutcome (st : Option LedgerFile) : Outcome :=
  { response :=
      { status := 200, success := some true,
        message := some "You\x27re already on the waitlist! We\x27ll notify you when Kenz Tasks launches.",
        alreadyExists := some true },
    state := st, logs := [] }

/-- The response once `filesize` exceeds `$maxFileSize`: a logged
generic 500 and no write. -/
def sizeOutcome (st : Option LedgerFile) : Outcome :=
  { response :=
      { status := 500, success := some false,
        message := some "Service temporarily unavailable" },
    state := st, logs := ["Waitlist CSV file size exceeded limit"] }

/-- `substr($s, 0, $n)`: keep the first `n` characters. -/
def truncate (n : Nat) (s : String) : String :=
  String.mk (s.data.take n)

/-- The `$csvRow` array: normalized email, timestamp, submitted source
(defaulting to `landing_page`), sanitized client address, and the
user-agent string truncated to 200 characters. -/
def signupRow (fl : Filters) (env : Env) (email : String) (p : Payload) : List String :=
  [email, env.now, p.source.getD "landing_page",
   clientIp fl env.xForwardedFor env.remoteAddr,
   truncate 200 (env.userAgent.getD "")]

/-- The append path: build the CSV row, write a header first when the
file is empty, append, report as position the number of non-empty
physical lines of the file after the write minus one for the header
(`count(file(..., SKIP_EMPTY)) - 1`, floored at 0), and log the
signup. -/
def acceptOutcome (fl : Filters) (env : Env) (st : Option LedgerFile)
    (email : String) (p : Payload) : Outcome :=
  let csvRow := signupRow fl env email p
  let ipAddress := clientIp fl env.xForwardedFor env.remoteAddr
  let withHeader := if fileSize st = 0 then fileRows st ++ [headerRow] else fileRows st
  let headerBytes := if fileSize st = 0 then (csvLine headerRow).length else 0
  let newRows := withHeader ++ [csvRow]
  let newSize := fileSize st + headerBytes + (csvLine csvRow).length
  let waitlistCount := ((fileLines newRows).filter (fun l => l ≠ "")).length - 1
  { response :=
      { status := 200, success := some true,
        message := some "Welcome to the waitlist! We\x27ll notify you when Kenz Tasks launches.",
        waitlistPosition := some waitlistCount,
        timestamp := some env.now },
    state := some { rows := newRows, byteSize := newSize },
    logs := ["Waitlist signup: " ++ email ++ " from " ++ ipAddress] }

/-- The `try` block past validation: duplicate check first, then size
check, then the append path. -/
def processSubmission (fl : Filters) (env : Env) (st : Option LedgerFile)
    (email : String) (p : Payload) : Outcome :=
  if emailStored st email then
    dupOutcome st
  else if fileSize st > maxFileSize then
    sizeOutcome st
  else
    acceptOutcome fl env st email p

/-- The whole request handler of `src/api/waitlist.php`:
OPTIONS branch, method check, payload/email presence check,
normalization, format validation, then `processSubmission`. -/
def handleWaitlist (fl : Filters) (env : Env) (st : Option LedgerFile) : Outcome :=
  if env.method = "OPTIONS" then
    { response := { status := 200 }, state := st, logs := [] }
  else if env.method ≠ "POST" then
    { response := { status := 405, success := some false, message := some "Method not allowed" },
      state := st, logs := [] }
  else
    match env.payload with
    | none =>
      { response := { status := 400, success := some false, message := some "Email is required" },
        state := st, logs := [] }
    | some p =>
      match p.email with
      | none =>
        { response := { status := 400, success := some false, message := some "Email is required" },
          state := st, logs := [] }
      | some rawEmail =>
        let email := normalizeEmail rawEmail
        if fl.validEmail email then
          processSubmission fl env st email p
        else
          { response := { status := 400, success := some false, message := some "Invalid email format" },
            state := st, logs := [] }

/-- A simple executable email-shape check standing in for PHP's
`FILTER_VALIDATE_EMAIL` in concrete witnesses: one `@`, a nonempty
local part, and a domain of at least two nonempty dot-separated
labels.  PHP's filter agrees with it on every concrete string the
witnesses below use. -/
def simpleValidEmail (s : String) : Bool :=
  match explodeChar '@' s with
  | [lp, domain] =>
    lp.length > 0 &&
    (explodeChar '.' domain).length ≥ 2 &&
    (explodeChar '.' domain).all (fun part => part.length > 0)
  | _ => false

/-- A simple executable IPv4 check standing in for PHP's
`FILTER_VALIDATE_IP` in concrete witnesses. -/
def simpleValidIp (s : String) : Bool :=
  let parts := explodeChar '.' s
  parts.length = 4 &&
  parts.all (fun part =>
    part.length > 0 && part.length ≤ 3 &&
    part.data.all Char.isDigit &&
    part.data.foldl (fun n c => n * 10 + (c.toNat - 48)) 0 ≤ 255)

/-- The concrete filters used by witnesses and counterexamples. -/
def simpleFilters : Filters :=
  { validEmail := simpleValidEmail, validIp := simpleValidIp }

/-- A POST request carrying the given raw email, with fixed ancillary
transport data, for concrete witnesses. -/
def postEnv (raw : String) : Env :=
  { method := "POST",
    payload := some { email := some raw, source := none },
    userAgent := some "Mozilla/5.0",
    xForwardedFor := none,
    remoteAddr := some "203.0.113.7",
    now := "2025-01-01 00:00:00" }

/-- The data rows of a ledger state: everything after the header when
the file is nonempty, nothing otherwise. -/
def ledgerRecords (st : Option LedgerFile) : List (List String) :=
  match st with
  | none => []
  | some f => if f.byteSize = 0 then [] else f.rows.drop 1

/-- A ledger state the handler itself can have produced: either no
file, an existing empty file, or a nonempty file whose first row is
the header. -/
def wellFormedB (st : Option LedgerFile) : Bool :=
  match st with
  | none => true
  | some f =>
    (decide (f.byteSize = 0) && decide (f.rows = [])) ||
    (decide (f.rows.head? = some headerRow) && decide (f.byteSize ≠ 0))

/-!
### Client Intake Widget: `submitToWaitlist`

The widget posts the email and, when the fetch rejects or the HTTP
status is not OK (`!response.ok` throws into the same catch), falls
back to a simulated signup against the `waitlist_emails` list held in
the browser's local storage.
-/

/-- The result object `submitToWaitlist` resolves with.  Absent
optional fields model JSON fields the object literal does not set. -/
structure WidgetResult where
  success : Bool
  message : String
  alreadyExists : Option Bool := none
  waitlistPosition : Option Nat := none
  timestamp : Option String := none
  demoMode : Option Bool := none
  deriving Repr, DecidableEq

/-- How the `fetch` of the service endpoint went: resolved with an OK
status and the parsed body, resolved with a non-OK status, or
rejected (network/transport failure). -/
inductive FetchOutcome where
  | ok (result : WidgetResult)
  | httpError (status : Nat)
  | networkError
  deriving Repr, DecidableEq

/-- The demo simulation block: duplicate check against the
`waitlist_emails` list, or push and simulated position.  Returns the
resolved result and the local list afterwards. -/
def demoFallback (localEmails : List String) (email now : String) :
    WidgetResult × List String :=
  if localEmails.contains email then
    ({ success := true,
       message := "You\x27re already on the waitlist! We\x27ll notify you when Kenz Tasks launches.",
       alreadyExists := some true,
       waitlistPosition := some localEmails.length },
     localEmails)
  else
    let newList := localEmails ++ [email]
    ({ success := true,
       message := "Welcome to the waitlist! You\x27re #" ++ toString newList.length ++
         " in line. We\x27ll notify you when Kenz Tasks launches.",
       waitlistPosition := some newList.length,
       timestamp := some now,
       demoMode := some true },
     newList)

/-- `submitToWaitlist(email)`: return the parsed server result when the
fetch resolved OK; on a non-OK status (the `!response.ok` throw) or a
rejected fetch, resolve through `demoFallback`. -/
def submitToWaitlist (fetch : FetchOutcome) (localEmails : List String)
    (email now : String) : WidgetResult × List String :=
  match fetch with
  | .ok result => (result, localEmails)
  | .httpError _ => demoFallback localEmails email now
  | .networkError => demoFallback localEmails email now

/-!
### Helper lemmas
-/

/-- On a POST request carrying a validly-formatted email, the handler
reaches the `try` block with the normalized email. -/
theorem handleWaitlist_post_eq (fl : Filters) (env : Env) (st : Option LedgerFile)
    (p : Payload) (raw : String)
    (hm : env.method = "POST") (hp : env.payload = some p) (he : p.email = some raw)
    (hv : fl.validEmail (normalizeEmail raw) = true) :
    handleWaitlist fl env st = processSubmission fl env st (normalizeEmail raw) p := by
  unfold handleWaitlist
  rw [hm, hp]
  simp [he, hv]

/-- A stored email short-circuits to the duplicate response. -/
theorem processSubmission_dup_eq (fl : Filters) (env : Env) (st : Option LedgerFile)
    (email : String) (p : Payload) (hdup : emailStored st email = true) :
    processSubmission fl env st email p = dupOutcome st := by
  unfold processSubmission
  simp [hdup]

/-- A fresh email within the size bound reaches the append path. -/
theorem processSubmission_accept_eq (fl : Filters) (env : Env) (st : Option LedgerFile)
    (email : String) (p : Payload) (hdup : emailStored st email = false)
    (hsz : ¬ fileSize st > maxFileSize) :
    processSubmission fl env st email p = acceptOutcome fl env st email p := by
  unfold processSubmission
  simp [hdup, hsz]


/-!
### Physical-line lemmas
-/

/-- Splitting never yields an empty list of pieces. -/
theorem splitOnChar_ne_nil (sep : Char) (l : List Char) : splitOnChar sep l ≠ [] := by
  cases l with
  | nil => simp [splitOnChar]
  | cons c rest =>
    by_cases h : c = sep
    · simp [splitOnChar, h]
    · simp only [splitOnChar, if_neg h]
      cases hs : splitOnChar sep rest with
      | nil => simp
      | cons p ps => simp

/-- A list containing the separator splits into at least two pieces. -/
theorem two_le_splitOnChar_length (sep : Char) (l : List Char) (h : sep ∈ l) :
    2 ≤ (splitOnChar sep l).length := by
  induction l with
  | nil => cases h
  | cons c rest ih =>
    by_cases hc : c = sep
    · have hp := List.length_pos_of_ne_nil (splitOnChar_ne_nil sep rest)
      simp only [splitOnChar, if_pos hc, List.length_cons]
      omega
    · have hr : sep ∈ rest := by
        rcases List.mem_cons.mp h with h1 | h1
        · exact absurd h1.symm hc
        · exact h1
      cases hs : splitOnChar sep rest with
      | nil => exact absurd hs (splitOnChar_ne_nil sep rest)
      | cons p ps =>
        have h2 := ih hr
        rw [hs] at h2
        simp only [splitOnChar, if_neg hc, hs, List.length_cons] at h2 ⊢
        omega

/-- Splitting a concatenation whose left part ends with the separator
splits each part independently (the boundary separator closes the left
part's last piece). -/
theorem splitOnChar_append_boundary (sep : Char) (zs ys : List Char) :
    splitOnChar sep ((zs ++ [sep]) ++ ys) =
      (splitOnChar sep (zs ++ [sep])).dropLast ++ splitOnChar sep ys := by
  induction zs with
  | nil =>
    cases hys : splitOnChar sep ys with
    | nil => exact absurd hys (splitOnChar_ne_nil sep ys)
    | cons q qs => simp [splitOnChar, hys]
  | cons c zs' ih =>
    cases hL : splitOnChar sep (zs' ++ [sep]) with
    | nil => exact absurd hL (splitOnChar_ne_nil sep _)
    | cons p0 ps0 =>
      cases ps0 with
      | nil =>
        exfalso
        have h2 := two_le_splitOnChar_length sep (zs' ++ [sep]) (by simp)
        rw [hL] at h2
        simp at h2
      | cons b ps1 =>
        by_cases hc : c = sep
        · rw [List.cons_append, List.cons_append]
          rw [show splitOnChar sep (c :: ((zs' ++ [sep]) ++ ys)) =
              [] :: splitOnChar sep ((zs' ++ [sep]) ++ ys) by
            simp [splitOnChar, hc]]
          rw [ih, hL]
          rw [show splitOnChar sep (c :: (zs' ++ [sep])) =
              [] :: splitOnChar sep (zs' ++ [sep]) by
            simp [splitOnChar, hc]]
          rw [hL]
          simp
        · have hinner : splitOnChar sep ((zs' ++ [sep]) ++ ys) =
              p0 :: ((b :: ps1).dropLast ++ splitOnChar sep ys) := by
            rw [ih, hL]
            simp
          have hlhs : splitOnChar sep ((c :: zs' ++ [sep]) ++ ys) =
              (c :: p0) :: ((b :: ps1).dropLast ++ splitOnChar sep ys) := by
            rw [List.cons_append, List.cons_append]
            show splitOnChar sep (c :: ((zs' ++ [sep]) ++ ys)) = _
            simp only [splitOnChar, if_neg hc, hinner]
          have hx : splitOnChar sep ((c :: zs') ++ [sep]) =
              (c :: p0) :: b :: ps1 := by
            rw [List.cons_append]
            show splitOnChar sep (c :: (zs' ++ [sep])) = _
            simp only [splitOnChar, if_neg hc, hL]
          rw [hlhs, hx]
          simp

/-- Appending strings concatenates their character data. -/
theorem string_data_append (s t : String) : (s ++ t).data = s.data ++ t.data := by
  cases s
  cases t
  rfl

/-- Every `fputcsv` output ends with its terminating newline. -/
theorem csvLine_data_eq (row : List String) :
    ∃ body, (csvLine row).data = body ++ ['\n'] := by
  induction row with
  | nil => exact ⟨[], rfl⟩
  | cons f rest ih =>
    cases rest with
    | nil =>
      refine ⟨(csvField f).data, ?_⟩
      show ((csvField f) ++ "\n").data = _
      rw [string_data_append]
    | cons g t =>
      obtain ⟨b, hb⟩ := ih
      refine ⟨(csvField f).data ++ ',' :: b, ?_⟩
      show ((csvField f) ++ "," ++ csvLine (g :: t)).data = _
      rw [string_data_append, string_data_append, hb]
      simp

/-- Closing a list with the separator adds one final empty piece. -/
theorem splitOnChar_concat_sep (sep : Char) (zs : List Char) :
    splitOnChar sep (zs ++ [sep]) = splitOnChar sep zs ++ [[]] := by
  induction zs with
  | nil => simp [splitOnChar]
  | cons c zs' ih =>
    by_cases hc : c = sep
    · rw [List.cons_append]
      rw [show splitOnChar sep (c :: (zs' ++ [sep])) =
          [] :: splitOnChar sep (zs' ++ [sep]) by simp [splitOnChar, hc]]
      rw [ih]
      simp [splitOnChar, hc]
    · cases hs : splitOnChar sep zs' with
      | nil => exact absurd hs (splitOnChar_ne_nil sep zs')
      | cons q qs =>
        rw [List.cons_append]
        have hi : splitOnChar sep (zs' ++ [sep]) = q :: (qs ++ [[]]) := by
          rw [ih, hs]
          simp
        rw [show splitOnChar sep (c :: (zs' ++ [sep])) =
            (c :: q) :: (qs ++ [[]]) by simp only [splitOnChar, if_neg hc, hi]]
        rw [show splitOnChar sep (c :: zs') = (c :: q) :: qs by
          simp only [splitOnChar, if_neg hc, hs]]
        simp

/-- The file's lines are the first record's lines followed by the
lines of the remaining content. -/
theorem fileLines_cons (r : List String) (rest : List (List String)) :
    fileLines (r :: rest) = recordLines r ++ fileLines rest := by
  obtain ⟨body, hb⟩ := csvLine_data_eq r
  show (explodeChar '\n' (ledgerContent (r :: rest))).dropLast = _
  rw [show ledgerContent (r :: rest) = csvLine r ++ ledgerContent rest from rfl]
  unfold explodeChar
  rw [string_data_append, hb, splitOnChar_append_boundary, List.map_append,
      List.dropLast_append_of_ne_nil _ (by simp [splitOnChar_ne_nil])]
  unfold fileLines recordLines explodeChar
  rw [hb]
  simp [List.map_dropLast]

/-- The physical lines of the file are exactly the concatenation of
each record's lines. -/
theorem fileLines_eq_flatMap (rows : List (List String)) :
    fileLines rows = rows.flatMap recordLines := by
  induction rows with
  | nil => rfl
  | cons r rest ih =>
    rw [fileLines_cons, ih]
    simp

/-- When every record occupies exactly one non-empty physical line,
the number of non-empty lines of the file equals the record count. -/
theorem count_nonempty_fileLines (rows : List (List String))
    (h : ∀ r ∈ rows, (recordLines r).length = 1 ∧ "" ∉ recordLines r) :
    ((fileLines rows).filter (fun l => l ≠ "")).length = rows.length := by
  induction rows with
  | nil => rfl
  | cons r rest ih =>
    rw [fileLines_cons]
    obtain ⟨h1, h2⟩ := h r (List.mem_cons_self r rest)
    cases hr : recordLines r with
    | nil => rw [hr] at h1; simp at h1
    | cons l t =>
      cases t with
      | cons u v => rw [hr] at h1; simp at h1
      | nil =>
        have hl : l ≠ "" := by
          intro he
          rw [hr, he] at h2
          simp at h2
        rw [List.filter_append]
        have ihr := ih (fun x hx => h x (List.mem_cons_of_mem r hx))
        simp [hl]
        simpa using ihr

/-- A sanitized email consists only of allowed characters. -/
theorem normalizeEmail_allowed (raw : String) :
    ∀ c ∈ (normalizeEmail raw).data, emailAllowedChar c = true := by
  intro c hc
  exact (List.mem_filter.mp hc).2

/-- An allowed email character is none of the CSV-significant
characters. -/
theorem allowed_not_special (c : Char) (h : emailAllowedChar c = true) :
    c ≠ ',' ∧ c ≠ '"' ∧ c ≠ ' ' ∧ c ≠ '\t' ∧ c ≠ '\n' ∧ c ≠ '\r' := by
  refine ⟨?_, ?_, ?_, ?_, ?_, ?_⟩ <;> intro he <;> rw [he] at h <;> revert h <;> decide

/-- `fputcsv` writes a field of allowed characters bare. -/
theorem csvField_eq_of_allowed (s : String)
    (h : ∀ c ∈ s.data, emailAllowedChar c = true) : csvField s = s := by
  unfold csvField
  rw [if_neg]
  intro hany
  obtain ⟨c, hc, hsp⟩ := List.any_eq_true.mp hany
  obtain ⟨h1, h2, h3, h4, h5, h6⟩ := allowed_not_special c (h c hc)
  simp only [csvSpecialChar, Bool.or_eq_true, decide_eq_true_eq] at hsp
  rcases hsp with ((((e|e)|e)|e)|e)|e
  exacts [h1 e, h2 e, h5 e, h6 e, h4 e, h3 e]

/-- An unquoted first field stops at the first delimiter. -/
theorem csvUntilComma_append (xs ys : List Char) (h : ',' ∉ xs) :
    csvUntilComma (xs ++ ',' :: ys) = xs := by
  induction xs with
  | nil => simp [csvUntilComma]
  | cons c rest ih =>
    have hc : c ≠ ',' := fun he => h (he ▸ List.mem_cons_self c rest)
    simp only [List.cons_append, csvUntilComma, if_neg hc]
    show c :: csvUntilComma (rest ++ ',' :: ys) = c :: rest
    rw [ih (fun hm => h (List.mem_cons_of_mem c hm))]

/-- Parsing a line that starts with a run of allowed characters
followed by a delimiter yields exactly that run as the first field. -/
theorem csvParseField0_clean (xs ys : List Char)
    (h : ∀ c ∈ xs, emailAllowedChar c = true) :
    csvParseField0 (xs ++ ',' :: ys) = xs := by
  have hcomma : ',' ∉ xs := fun hm => (allowed_not_special _ (h _ hm)).1 rfl
  cases xs with
  | nil => simp [csvParseField0, csvUntilComma]
  | cons c rest =>
    obtain ⟨h1, h2, h3, h4, h5, h6⟩ := allowed_not_special c (h c (List.mem_cons_self c rest))
    have hws : (c = ' ' || c = '\t') = false := by
      simp [h3, h4]
    unfold csvParseField0
    simp only [List.cons_append, List.dropWhile_cons, hws, Bool.false_eq_true, if_false]
    rw [if_neg h2]
    exact csvUntilComma_append (c :: rest) ys hcomma

/-- `str_getcsv` reads a clean first field up to the delimiter. -/
theorem csvFirstField_clean (e : String) (ys : List Char)
    (h : ∀ c ∈ e.data, emailAllowedChar c = true) :
    csvFirstField (String.mk (e.data ++ ',' :: ys)) = some e := by
  have hne : String.mk (e.data ++ ',' :: ys) ≠ "" := by
    intro heq
    have hd : (e.data ++ ',' :: ys) = [] := congrArg String.data heq
    simp at hd
  unfold csvFirstField
  rw [if_neg hne,
      show (String.mk (e.data ++ ',' :: ys)).data = e.data ++ ',' :: ys from rfl,
      csvParseField0_clean e.data ys h]

/-- Splitting a concatenation whose left part is separator-free puts
the whole left part at the front of the first piece. -/
theorem splitOnChar_append_of_not_mem (sep : Char) (xs ys : List Char)
    (h : ∀ c ∈ xs, c ≠ sep) :
    splitOnChar sep (xs ++ ys) =
      (xs ++ (splitOnChar sep ys).headD []) :: (splitOnChar sep ys).tail := by
  induction xs with
  | nil =>
    cases hys : splitOnChar sep ys with
    | nil => exact absurd hys (splitOnChar_ne_nil sep ys)
    | cons a t => simp [hys]
  | cons c rest ih =>
    have hc : c ≠ sep := h c (List.mem_cons_self c rest)
    have hrest := ih (fun x hx => h x (List.mem_cons_of_mem c hx))
    rw [List.cons_append]
    rw [show splitOnChar sep (c :: (rest ++ ys)) =
        ((c :: (rest ++ (splitOnChar sep ys).headD [])) :: (splitOnChar sep ys).tail) by
      simp only [splitOnChar, if_neg hc, hrest]]
    simp

/-- The first physical line of a record that starts with an allowed
email field is that email followed by the delimiter; the record has at
least one more line boundary (its terminating newline), so the line
survives `dropLast`. -/
theorem recordLines_head_email (email f2 : String) (rest : List String)
    (h : ∀ c ∈ email.data, emailAllowedChar c = true) :
    ∃ t more, recordLines (email :: f2 :: rest) =
      String.mk (email.data ++ ',' :: t) :: more := by
  have hline : csvLine (email :: f2 :: rest) = csvField email ++ "," ++ csvLine (f2 :: rest) := rfl
  obtain ⟨b, hb⟩ := csvLine_data_eq (f2 :: rest)
  have hdata : (csvLine (email :: f2 :: rest)).data =
      (email.data ++ [',']) ++ (csvLine (f2 :: rest)).data := by
    rw [hline, string_data_append, string_data_append, csvField_eq_of_allowed email h]
  have hnomem : ∀ c ∈ email.data ++ [','], c ≠ '\n' := by
    intro c hc
    rcases List.mem_append.mp hc with hm | hm
    · exact (allowed_not_special c (h c hm)).2.2.2.2.1
    · simp at hm
      rw [hm]
      decide
  have hsplit := splitOnChar_append_of_not_mem '\n' (email.data ++ [','])
    ((csvLine (f2 :: rest)).data) hnomem
  have h2 : 2 ≤ (splitOnChar '\n' ((email.data ++ [',']) ++ (csvLine (f2 :: rest)).data)).length := by
    apply two_le_splitOnChar_length
    rw [hb]
    simp
  unfold recordLines explodeChar
  rw [hdata, hsplit]
  rw [hsplit] at h2
  cases htl : (splitOnChar '\n' (csvLine (f2 :: rest)).data).tail with
  | nil =>
    exfalso
    rw [htl] at h2
    simp at h2
  | cons q qs =>
    refine ⟨(splitOnChar '\n' (csvLine (f2 :: rest)).data).headD [],
      (List.map String.mk (q :: qs)).dropLast, ?_⟩
    simp

/-- A freshly appended record with an allowed-character email is found
again by the line scan: the record's first physical line starts with
that email and a delimiter. -/
theorem emailStored_append_record (rows0 : List (List String)) (email f2 : String)
    (rest : List String) (B : Nat)
    (h : ∀ c ∈ email.data, emailAllowedChar c = true) :
    emailStored (some { rows := rows0 ++ [email :: f2 :: rest], byteSize := B }) email = true := by
  obtain ⟨t, more, hrl⟩ := recordLines_head_email email f2 rest h
  show (fileLines (rows0 ++ [email :: f2 :: rest])).any
      (fun l => csvFirstField l = some email) = true
  rw [fileLines_eq_flatMap, List.flatMap_append]
  simp only [List.flatMap_cons, List.flatMap_nil, List.append_nil]
  rw [hrl, List.any_append]
  have hp : csvFirstField (String.mk (email.data ++ ',' :: t)) = some email :=
    csvFirstField_clean email t h
  simp [hp]


/-!
### Claim theorems
-/

/-- C9: for every non-OK HTTP status from the server — 400 validation
rejections and 500 capacity/storage faults included — `submitToWaitlist`
does not surface the failure: it resolves through the local simulated
store with `success = true`, so the caller never observes a server-side
rejection as a request failure. -/
theorem submitToWaitlist_http_error_resolves_success (status : Nat)
    (localEmails : List String) (email now : String) :
    submitToWaitlist (FetchOutcome.httpError status) localEmails email now =
      demoFallback localEmails email now ∧
    (submitToWaitlist (FetchOutcome.httpError status) localEmails email now).1.success = true := by
  refine ⟨rfl, ?_⟩
  by_cases h : email ∈ localEmails <;>
    simp [submitToWaitlist, demoFallback, h]

/-- C8 (counterexample): on transport failure with the email already in
the client-local list, the fallback result carries no simulated-mode
flag at all (`demoMode` is absent), contradicting the claim that both
fallback paths return a result flagged as simulated. -/
theorem submitToWaitlist_dup_fallback_unflagged :
    (submitToWaitlist FetchOutcome.networkError ["user@example.com"]
        "user@example.com" "2025-01-01T00:00:00.000Z").1.demoMode = none ∧
    (submitToWaitlist FetchOutcome.networkError ["user@example.com"]
        "user@example.com" "2025-01-01T00:00:00.000Z").1.alreadyExists = some true := by
  constructor <;> rfl

/-- C8 (amended): on transport failure `submitToWaitlist` resolves a
local simulated result: it consults the client-local duplicate list,
assigns a simulated position, always succeeds, and is flagged as
simulated (`demoMode = true`) on the new-email path only — the
already-registered path returns an unflagged result. -/
theorem submitToWaitlist_fallback_shape (localEmails : List String) (email now : String) :
    (submitToWaitlist FetchOutcome.networkError localEmails email now).1.success = true ∧
    (localEmails.contains email = true →
      submitToWaitlist FetchOutcome.networkError localEmails email now =
        ({ success := true,
           message := "You\x27re already on the waitlist! We\x27ll notify you when Kenz Tasks launches.",
           alreadyExists := some true,
           waitlistPosition := some localEmails.length }, localEmails)) ∧
    (localEmails.contains email = false →
      submitToWaitlist FetchOutcome.networkError localEmails email now =
        ({ success := true,
           message := "Welcome to the waitlist! You\x27re #" ++ toString (localEmails.length + 1) ++
             " in line. We\x27ll notify you when Kenz Tasks launches.",
           waitlistPosition := some (localEmails.length + 1),
           timestamp := some now,
           demoMode := some true }, localEmails ++ [email])) := by
  refine ⟨?_, ?_, ?_⟩
  · by_cases h : email ∈ localEmails <;>
      simp [submitToWaitlist, demoFallback, h]
  · intro h
    have hm : email ∈ localEmails := by simpa using h
    simp [submitToWaitlist, demoFallback, hm]
  · intro h
    have hm : email ∉ localEmails := by simpa using h
    simp [submitToWaitlist, demoFallback, hm]

/-- C8 (witness for the amended theorem). -/
theorem submitToWaitlist_fallback_shape_witness :
    (submitToWaitlist FetchOutcome.networkError ["user@example.com"]
        "user@example.com" "2025-01-01T00:00:00.000Z").1.success = true ∧
    submitToWaitlist FetchOutcome.networkError ["user@example.com"]
        "user@example.com" "2025-01-01T00:00:00.000Z" =
      ({ success := true,
         message := "You\x27re already on the waitlist! We\x27ll notify you when Kenz Tasks launches.",
         alreadyExists := some true,
         waitlistPosition := some 1 }, ["user@example.com"]) := by
  have h := submitToWaitlist_fallback_shape ["user@example.com"]
    "user@example.com" "2025-01-01T00:00:00.000Z"
  exact ⟨h.1, h.2.1 (by decide)⟩

/-- C5: a POST whose payload is absent, lacks the email field, or whose
email fails format validation after sanitization gets `success = false`
with a 400 status, and the ledger is never written. -/
theorem invalid_submission_rejected (fl : Filters) (env : Env) (st : Option LedgerFile)
    (hm : env.method = "POST")
    (hbad : env.payload = none ∨
      (∃ p, env.payload = some p ∧ p.email = none) ∨
      (∃ p raw, env.payload = some p ∧ p.email = some raw ∧
        fl.validEmail (normalizeEmail raw) = false)) :
    (handleWaitlist fl env st).response.status = 400 ∧
    (handleWaitlist fl env st).response.success = some false ∧
    (handleWaitlist fl env st).state = st := by
  rcases hbad with hnone | ⟨p, hp, he⟩ | ⟨p, raw, hp, he, hv⟩
  · unfold handleWaitlist
    rw [hm]
    simp [hnone]
  · unfold handleWaitlist
    rw [hm]
    simp [hp, he]
  · unfold handleWaitlist
    rw [hm]
    simp [hp, he, hv]

/-- C5 (witness). -/
theorem invalid_submission_rejected_witness :
    (handleWaitlist simpleFilters
        { method := "POST", payload := some { email := some "not-an-email", source := none },
          userAgent := none, xForwardedFor := none, remoteAddr := none,
          now := "2025-01-01 00:00:00" } none).response.status = 400 ∧
    (handleWaitlist simpleFilters
        { method := "POST", payload := some { email := some "not-an-email", source := none },
          userAgent := none, xForwardedFor := none, remoteAddr := none,
          now := "2025-01-01 00:00:00" } none).response.success = some false ∧
    (handleWaitlist simpleFilters
        { method := "POST", payload := some { email := some "not-an-email", source := none },
          userAgent := none, xForwardedFor := none, remoteAddr := none,
          now := "2025-01-01 00:00:00" } none).state = none :=
  invalid_submission_rejected simpleFilters _ none rfl
    (Or.inr (Or.inr ⟨_, "not-an-email", rfl, rfl, by decide⟩))

/-- C6: any request whose method is not POST leaves the ledger state
untouched and writes no log; an OPTIONS pre-flight gets a bare 200 with
no body, every other method gets a 405 "Method not allowed" failure. -/
theorem non_post_request_rejected (fl : Filters) (env : Env) (st : Option LedgerFile)
    (hm : env.method ≠ "POST") :
    (handleWaitlist fl env st).state = st ∧
    (handleWaitlist fl env st).logs = [] ∧
    (env.method = "OPTIONS" →
      (handleWaitlist fl env st).response = { status := 200 }) ∧
    (env.method ≠ "OPTIONS" →
      (handleWaitlist fl env st).response =
        { status := 405, success := some false, message := some "Method not allowed" }) := by
  by_cases ho : env.method = "OPTIONS" <;>
    · unfold handleWaitlist
      simp [ho, hm]

/-- C6 (witness). -/
theorem non_post_request_rejected_witness :
    (handleWaitlist simpleFilters
        { method := "GET", payload := none, userAgent := none, xForwardedFor := none,
          remoteAddr := none, now := "2025-01-01 00:00:00" } none).state = none ∧
    (handleWaitlist simpleFilters
        { method := "GET", payload := none, userAgent := none, xForwardedFor := none,
          remoteAddr := none, now := "2025-01-01 00:00:00" } none).response =
      { status := 405, success := some false, message := some "Method not allowed" } := by
  have h := non_post_request_rejected simpleFilters
    { method := "GET", payload := none, userAgent := none, xForwardedFor := none,
      remoteAddr := none, now := "2025-01-01 00:00:00" } none (by decide)
  exact ⟨h.1, h.2.2.2 (by decide)⟩

/-- The ledger state the append path leaves behind: prior rows, a
header first when the file was empty, then the new signup row. -/
theorem acceptOutcome_state (fl : Filters) (env : Env) (st : Option LedgerFile)
    (email : String) (p : Payload) :
    (acceptOutcome fl env st email p).state =
      some { rows := (if fileSize st = 0 then fileRows st ++ [headerRow] else fileRows st) ++
                [signupRow fl env email p],
             byteSize := fileSize st + (if fileSize st = 0 then (csvLine headerRow).length else 0) +
                (csvLine (signupRow fl env email p)).length } := rfl

/-- The reported position is the number of non-empty physical lines of
the file after the write, minus one. -/
theorem acceptOutcome_position (fl : Filters) (env : Env) (st : Option LedgerFile)
    (email : String) (p : Payload) :
    (acceptOutcome fl env st email p).response.waitlistPosition =
      some (((fileLines ((if fileSize st = 0 then fileRows st ++ [headerRow] else fileRows st) ++
        [signupRow fl env email p])).filter (fun l => l ≠ "")).length - 1) := rfl

/-- C10: a submission whose email is already in the ledger answers
success with `alreadyExists = true`, no position and no timestamp,
leaves state and logs untouched — even when the ledger file already
exceeds the 10 MiB bound, because the duplicate check runs before the
size check. -/
theorem duplicate_bypasses_size_check (fl : Filters) (env : Env) (st : Option LedgerFile)
    (p : Payload) (raw : String)
    (hm : env.method = "POST") (hp : env.payload = some p) (he : p.email = some raw)
    (hv : fl.validEmail (normalizeEmail raw) = true)
    (hdup : emailStored st (normalizeEmail raw) = true)
    (_hsz : fileSize st > maxFileSize) :
    (handleWaitlist fl env st).response.status = 200 ∧
    (handleWaitlist fl env st).response.success = some true ∧
    (handleWaitlist fl env st).response.alreadyExists = some true ∧
    (handleWaitlist fl env st).response.waitlistPosition = none ∧
    (handleWaitlist fl env st).response.timestamp = none ∧
    (handleWaitlist fl env st).state = st ∧
    (handleWaitlist fl env st).logs = [] := by
  rw [handleWaitlist_post_eq fl env st p raw hm hp he hv,
      processSubmission_dup_eq fl env st _ p hdup]
  exact ⟨rfl, rfl, rfl, rfl, rfl, rfl, rfl⟩

set_option maxRecDepth 100000 in
/-- C10 (witness): the ledger is a full 10 MiB + 1 byte, yet the
duplicate submission succeeds. -/
theorem duplicate_bypasses_size_check_witness :
    (handleWaitlist simpleFilters (postEnv "user@example.com")
        (some { rows := [headerRow,
                  ["user@example.com", "2024-12-31 10:00:00", "landing_page", "198.51.100.9", "UA"]],
                byteSize := 10 * 1024 * 1024 + 1 })).response.success = some true ∧
    (handleWaitlist simpleFilters (postEnv "user@example.com")
        (some { rows := [headerRow,
                  ["user@example.com", "2024-12-31 10:00:00", "landing_page", "198.51.100.9", "UA"]],
                byteSize := 10 * 1024 * 1024 + 1 })).response.alreadyExists = some true ∧
    (handleWaitlist simpleFilters (postEnv "user@example.com")
        (some { rows := [headerRow,
                  ["user@example.com", "2024-12-31 10:00:00", "landing_page", "198.51.100.9", "UA"]],
                byteSize := 10 * 1024 * 1024 + 1 })).state =
      some { rows := [headerRow,
                ["user@example.com", "2024-12-31 10:00:00", "landing_page", "198.51.100.9", "UA"]],
              byteSize := 10 * 1024 * 1024 + 1 } := by
  have h := duplicate_bypasses_size_check simpleFilters (postEnv "user@example.com")
    (some { rows := [headerRow,
              ["user@example.com", "2024-12-31 10:00:00", "landing_page", "198.51.100.9", "UA"]],
            byteSize := 10 * 1024 * 1024 + 1 })
    { email := some "user@example.com", source := none } "user@example.com"
    rfl rfl rfl (by decide) (by decide) (by decide)
  exact ⟨h.2.1, h.2.2.1, h.2.2.2.2.2.1⟩

set_option maxRecDepth 1000000 in
/-- C2 (counterexample): the position is `count(file(...)) - 1` over
physical lines, not records.  A source field containing a newline is
written by `fputcsv` as a quoted field spanning two physical lines, so
the very first record of an empty ledger is reported at position 2,
where the claim requires 1 + 0 prior records = 1. -/
theorem multiline_source_inflates_position :
    (handleWaitlist simpleFilters
        { method := "POST", payload := some { email := some "a@b.com", source := some "x\ny" },
          userAgent := some "Mozilla/5.0", xForwardedFor := none,
          remoteAddr := some "203.0.113.7", now := "2025-01-01 00:00:00" } none).response.success =
      some true ∧
    (handleWaitlist simpleFilters
        { method := "POST", payload := some { email := some "a@b.com", source := some "x\ny" },
          userAgent := some "Mozilla/5.0", xForwardedFor := none,
          remoteAddr := some "203.0.113.7",
          now := "2025-01-01 00:00:00" } none).response.waitlistPosition = some 2 ∧
    (ledgerRecords (handleWaitlist simpleFilters
        { method := "POST", payload := some { email := some "a@b.com", source := some "x\ny" },
          userAgent := some "Mozilla/5.0", xForwardedFor := none,
          remoteAddr := some "203.0.113.7",
          now := "2025-01-01 00:00:00" } none).state).length = 1 := by
  decide

/-- C2 (amended): when every stored record and the newly appended
record each occupy exactly one non-empty physical line (no stored
field embeds a newline), a POST of a valid email not yet in a
well-formed ledger within the size bound is accepted: 200,
`success = true`, no `alreadyExists` field, the acceptance timestamp,
and a waitlist position equal to 1 + the number of records the ledger
held before the write (header row excluded).  In general the code
reports the non-empty physical line count after the write minus the
header line, which exceeds the record count when fields contain
newlines. -/
theorem single_line_submission_position (fl : Filters) (env : Env) (st : Option LedgerFile)
    (p : Payload) (raw : String)
    (hm : env.method = "POST") (hp : env.payload = some p) (he : p.email = some raw)
    (hv : fl.validEmail (normalizeEmail raw) = true)
    (hwf : wellFormedB st = true)
    (hone : ∀ r ∈ fileRows st, (recordLines r).length = 1 ∧ "" ∉ recordLines r)
    (hnew : (recordLines (signupRow fl env (normalizeEmail raw) p)).length = 1 ∧
      "" ∉ recordLines (signupRow fl env (normalizeEmail raw) p))
    (hdup : emailStored st (normalizeEmail raw) = false)
    (hsz : fileSize st ≤ maxFileSize) :
    (handleWaitlist fl env st).response.status = 200 ∧
    (handleWaitlist fl env st).response.success = some true ∧
    (handleWaitlist fl env st).response.alreadyExists = none ∧
    (handleWaitlist fl env st).response.timestamp = some env.now ∧
    (handleWaitlist fl env st).response.waitlistPosition =
      some ((ledgerRecords st).length + 1) := by
  rw [handleWaitlist_post_eq fl env st p raw hm hp he hv,
      processSubmission_accept_eq fl env st _ p hdup (not_lt.mpr hsz)]
  refine ⟨rfl, rfl, rfl, rfl, ?_⟩
  rw [acceptOutcome_position]
  rcases st with _ | ⟨rows, sz⟩
  · rw [show (if fileSize (none : Option LedgerFile) = 0 then
        fileRows (none : Option LedgerFile) ++ [headerRow]
      else fileRows (none : Option LedgerFile)) = [headerRow] from rfl]
    rw [count_nonempty_fileLines]
    · rfl
    · intro r hr
      rcases List.mem_append.mp hr with h1 | h1
      · simp only [List.mem_singleton] at h1
        subst h1
        exact ⟨by decide, by decide⟩
      · simp only [List.mem_singleton] at h1
        subst h1
        exact hnew
  · simp only [wellFormedB, Bool.or_eq_true, Bool.and_eq_true, decide_eq_true_eq] at hwf
    rcases hwf with ⟨h0, hr0⟩ | ⟨hh, hnz⟩
    · subst h0
      subst hr0
      rw [show (if fileSize (some { rows := ([] : List (List String)), byteSize := 0 }) = 0 then
          fileRows (some { rows := ([] : List (List String)), byteSize := 0 }) ++ [headerRow]
        else fileRows (some { rows := ([] : List (List String)), byteSize := 0 })) =
          [headerRow] from rfl]
      rw [count_nonempty_fileLines]
      · rfl
      · intro r hr
        rcases List.mem_append.mp hr with h1 | h1
        · simp only [List.mem_singleton] at h1
          subst h1
          exact ⟨by decide, by decide⟩
        · simp only [List.mem_singleton] at h1
          subst h1
          exact hnew
    · rcases rows with _ | ⟨r0, rest⟩
      · simp at hh
      · simp only [List.head?_cons, Option.some.injEq] at hh
        subst hh
        rw [show (if fileSize (some { rows := headerRow :: rest, byteSize := sz }) = 0 then
            fileRows (some { rows := headerRow :: rest, byteSize := sz }) ++ [headerRow]
          else fileRows (some { rows := headerRow :: rest, byteSize := sz })) =
            headerRow :: rest from if_neg hnz]
        rw [count_nonempty_fileLines]
        · simp [ledgerRecords, hnz]
        · intro r hr
          rcases List.mem_append.mp hr with h1 | h1
          · exact hone r h1
          · simp only [List.mem_singleton] at h1
            subst h1
            exact hnew

set_option maxRecDepth 1000000 in
/-- C2 (witness for the amended theorem): one single-line prior
record, so the new submission lands at position 2. -/
theorem single_line_submission_position_witness :
    (handleWaitlist simpleFilters (postEnv "fresh@example.com")
        (some { rows := [headerRow,
                  ["a@b.com", "2024-12-31 10:00:00", "landing_page", "198.51.100.9", "UA"]],
                byteSize := 120 })).response.success = some true ∧
    (handleWaitlist simpleFilters (postEnv "fresh@example.com")
        (some { rows := [headerRow,
                  ["a@b.com", "2024-12-31 10:00:00", "landing_page", "198.51.100.9", "UA"]],
                byteSize := 120 })).response.alreadyExists = none ∧
    (handleWaitlist simpleFilters (postEnv "fresh@example.com")
        (some { rows := [headerRow,
                  ["a@b.com", "2024-12-31 10:00:00", "landing_page", "198.51.100.9", "UA"]],
                byteSize := 120 })).response.timestamp = some "2025-01-01 00:00:00" ∧
    (handleWaitlist simpleFilters (postEnv "fresh@example.com")
        (some { rows := [headerRow,
                  ["a@b.com", "2024-12-31 10:00:00", "landing_page", "198.51.100.9", "UA"]],
                byteSize := 120 })).response.waitlistPosition = some 2 := by
  have h := single_line_submission_position simpleFilters (postEnv "fresh@example.com")
    (some { rows := [headerRow,
              ["a@b.com", "2024-12-31 10:00:00", "landing_page", "198.51.100.9", "UA"]],
            byteSize := 120 })
    { email := some "fresh@example.com", source := none } "fresh@example.com"
    rfl rfl rfl (by decide) (by decide) (by decide) (by decide) (by decide) (by decide)
  exact ⟨h.2.1, h.2.2.1, h.2.2.2.1, h.2.2.2.2⟩

/-- C3: once a submission has been accepted, submitting any raw string
with the same normalized email again answers `success = true` with
`alreadyExists = true`, writes no new row, and leaves the ledger state
— and hence its record count — unchanged. -/
theorem resubmission_idempotent (fl : Filters) (env1 env2 : Env) (st : Option LedgerFile)
    (p1 p2 : Payload) (raw1 raw2 : String)
    (hm1 : env1.method = "POST") (hp1 : env1.payload = some p1) (he1 : p1.email = some raw1)
    (hv1 : fl.validEmail (normalizeEmail raw1) = true)
    (hdup1 : emailStored st (normalizeEmail raw1) = false)
    (hsz1 : fileSize st ≤ maxFileSize)
    (hm2 : env2.method = "POST") (hp2 : env2.payload = some p2) (he2 : p2.email = some raw2)
    (hnorm : normalizeEmail raw2 = normalizeEmail raw1) :
    (handleWaitlist fl env2 (handleWaitlist fl env1 st).state).response.success = some true ∧
    (handleWaitlist fl env2 (handleWaitlist fl env1 st).state).response.alreadyExists = some true ∧
    (handleWaitlist fl env2 (handleWaitlist fl env1 st).state).state =
      (handleWaitlist fl env1 st).state ∧
    (fileRows (handleWaitlist fl env2 (handleWaitlist fl env1 st).state).state).length =
      (fileRows (handleWaitlist fl env1 st).state).length := by
  have hv2 : fl.validEmail (normalizeEmail raw2) = true := by rw [hnorm]; exact hv1
  have h1 : handleWaitlist fl env1 st = acceptOutcome fl env1 st (normalizeEmail raw1) p1 := by
    rw [handleWaitlist_post_eq fl env1 st p1 raw1 hm1 hp1 he1 hv1,
        processSubmission_accept_eq fl env1 st _ p1 hdup1 (not_lt.mpr hsz1)]
  have hdup2 : emailStored (acceptOutcome fl env1 st (normalizeEmail raw1) p1).state
      (normalizeEmail raw2) = true := by
    rw [acceptOutcome_state, hnorm]
    exact emailStored_append_record _ (normalizeEmail raw1) env1.now
      [p1.source.getD "landing_page", clientIp fl env1.xForwardedFor env1.remoteAddr,
       truncate 200 (env1.userAgent.getD "")] _ (normalizeEmail_allowed raw1)
  have h2 : handleWaitlist fl env2 (acceptOutcome fl env1 st (normalizeEmail raw1) p1).state =
      dupOutcome (acceptOutcome fl env1 st (normalizeEmail raw1) p1).state := by
    rw [handleWaitlist_post_eq fl env2 _ p2 raw2 hm2 hp2 he2 hv2,
        processSubmission_dup_eq fl env2 _ _ p2 hdup2]
  rw [h1, h2]
  exact ⟨rfl, rfl, rfl, rfl⟩

set_option maxRecDepth 100000 in
/-- C3 (witness): submit, then resubmit with extra surrounding
whitespace; the second call reports the duplicate and the ledger is
unchanged. -/
theorem resubmission_idempotent_witness :
    (handleWaitlist simpleFilters (postEnv " user@example.com ")
        (handleWaitlist simpleFilters (postEnv "user@example.com") none).state).response.success =
      some true ∧
    (handleWaitlist simpleFilters (postEnv " user@example.com ")
        (handleWaitlist simpleFilters (postEnv "user@example.com") none).state).response.alreadyExists =
      some true ∧
    (handleWaitlist simpleFilters (postEnv " user@example.com ")
        (handleWaitlist simpleFilters (postEnv "user@example.com") none).state).state =
      (handleWaitlist simpleFilters (postEnv "user@example.com") none).state := by
  have h := resubmission_idempotent simpleFilters (postEnv "user@example.com")
    (postEnv " user@example.com ") none
    { email := some "user@example.com", source := none }
    { email := some " user@example.com ", source := none }
    "user@example.com" " user@example.com "
    rfl rfl rfl (by decide) (by decide) (by decide) rfl rfl rfl (by decide)
  exact ⟨h.1, h.2.1, h.2.2.1⟩

set_option maxRecDepth 100000 in
/-- C1 (counterexample): the service does not lowercase emails — after
an accepted `USER@Example.com ` (trailing space), submitting
`user@example.com` is not detected as a duplicate: it is accepted and
the ledger ends up holding two records whose emails differ only by
letter case. -/
theorem case_variant_not_detected_as_duplicate :
    (handleWaitlist simpleFilters (postEnv "USER@Example.com ") none).response.success =
      some true ∧
    (handleWaitlist simpleFilters (postEnv "user@example.com")
        (handleWaitlist simpleFilters (postEnv "USER@Example.com ") none).state).response.alreadyExists =
      none ∧
    (handleWaitlist simpleFilters (postEnv "user@example.com")
        (handleWaitlist simpleFilters (postEnv "USER@Example.com ") none).state).response.waitlistPosition =
      some 2 ∧
    (ledgerRecords (handleWaitlist simpleFilters (postEnv "user@example.com")
        (handleWaitlist simpleFilters (postEnv "USER@Example.com ") none).state).state).map
      List.head? = [some "USER@Example.com", some "user@example.com"] := by
  decide

/-- C1 (amended): the service normalizes a submitted email by trimming
whitespace and stripping characters invalid in an email address but
preserves letter case, and stores and compares emails literally: two
valid submissions whose normalized forms are distinct strings — even
when they differ only by letter case — are both stored (provided the
first record occupies a single physical line, i.e. none of its stored
fields embeds a newline), the second one not being flagged as a
duplicate. -/
theorem email_comparison_is_literal (fl : Filters) (env1 env2 : Env)
    (p1 p2 : Payload) (raw1 raw2 : String)
    (hm1 : env1.method = "POST") (hp1 : env1.payload = some p1) (he1 : p1.email = some raw1)
    (hv1 : fl.validEmail (normalizeEmail raw1) = true)
    (hm2 : env2.method = "POST") (hp2 : env2.payload = some p2) (he2 : p2.email = some raw2)
    (hv2 : fl.validEmail (normalizeEmail raw2) = true)
    (hne : normalizeEmail raw1 ≠ normalizeEmail raw2)
    (hneh : normalizeEmail raw2 ≠ "email")
    (hsingle1 : (recordLines (signupRow fl env1 (normalizeEmail raw1) p1)).length = 1)
    (hsz2 : fileSize (handleWaitlist fl env1 none).state ≤ maxFileSize) :
    (handleWaitlist fl env2 (handleWaitlist fl env1 none).state).response.success = some true ∧
    (handleWaitlist fl env2 (handleWaitlist fl env1 none).state).response.alreadyExists = none ∧
    (ledgerRecords (handleWaitlist fl env2 (handleWaitlist fl env1 none).state).state).map
      List.head? = [some (normalizeEmail raw1), some (normalizeEmail raw2)] := by
  have h1 : handleWaitlist fl env1 none =
      acceptOutcome fl env1 none (normalizeEmail raw1) p1 := by
    rw [handleWaitlist_post_eq fl env1 none p1 raw1 hm1 hp1 he1 hv1,
        processSubmission_accept_eq fl env1 none _ p1 rfl (by decide)]
  have hstate1 : (acceptOutcome fl env1 none (normalizeEmail raw1) p1).state =
      some { rows := [headerRow, signupRow fl env1 (normalizeEmail raw1) p1],
             byteSize := (csvLine headerRow).length +
               (csvLine (signupRow fl env1 (normalizeEmail raw1) p1)).length } := by
    rw [acceptOutcome_state]
    simp [fileSize, fileRows]
  rw [h1, hstate1] at hsz2 ⊢
  have hd : ∀ B, emailStored
      (some { rows := [headerRow, signupRow fl env1 (normalizeEmail raw1) p1], byteSize := B })
      (normalizeEmail raw2) = false := by
    intro B
    obtain ⟨t, more, hrl⟩ := recordLines_head_email (normalizeEmail raw1) env1.now
      [p1.source.getD "landing_page", clientIp fl env1.xForwardedFor env1.remoteAddr,
       truncate 200 (env1.userAgent.getD "")] (normalizeEmail_allowed raw1)
    have hrl1 : recordLines (signupRow fl env1 (normalizeEmail raw1) p1) =
        String.mk ((normalizeEmail raw1).data ++ ',' :: t) :: more := hrl
    have hmore : more = [] := by
      have hlen := congrArg List.length hrl1
      rw [hsingle1] at hlen
      simpa using hlen.symm
    show (fileLines [headerRow, signupRow fl env1 (normalizeEmail raw1) p1]).any
        (fun l => csvFirstField l = some (normalizeEmail raw2)) = false
    rw [fileLines_eq_flatMap]
    simp only [List.flatMap_cons, List.flatMap_nil, List.append_nil]
    rw [hrl1, hmore,
        show recordLines headerRow = ["email,timestamp,source,ip_address,user_agent"] by decide]
    have hhdr : csvFirstField "email,timestamp,source,ip_address,user_agent" = some "email" := by
      decide
    have hch : csvFirstField (String.mk ((normalizeEmail raw1).data ++ ',' :: t)) =
        some (normalizeEmail raw1) := csvFirstField_clean _ t (normalizeEmail_allowed raw1)
    simp [hhdr, hch]
    exact ⟨fun h => hneh h.symm, hne⟩
  rw [handleWaitlist_post_eq fl env2 _ p2 raw2 hm2 hp2 he2 hv2,
      processSubmission_accept_eq fl env2 _ _ p2 (hd _) (not_lt.mpr hsz2),
      acceptOutcome_state]
  have hpos : 0 < (csvLine headerRow).length := by decide
  refine ⟨rfl, rfl, ?_⟩
  simp only [ledgerRecords, fileSize, fileRows]
  rw [if_neg (by omega), if_neg (by omega)]
  simp [signupRow]

set_option maxRecDepth 1000000 in
/-- C1 (witness for the amended theorem): the spec's own example pair,
`USER@Example.com ` then `user@example.com`. -/
theorem email_comparison_is_literal_witness :
    (handleWaitlist simpleFilters (postEnv "user@example.com")
        (handleWaitlist simpleFilters (postEnv "USER@Example.com ") none).state).response.success =
      some true ∧
    (handleWaitlist simpleFilters (postEnv "user@example.com")
        (handleWaitlist simpleFilters (postEnv "USER@Example.com ") none).state).response.alreadyExists =
      none ∧
    (ledgerRecords (handleWaitlist simpleFilters (postEnv "user@example.com")
        (handleWaitlist simpleFilters (postEnv "USER@Example.com ") none).state).state).map
      List.head? = [some "USER@Example.com", some "user@example.com"] := by
  have h := email_comparison_is_literal simpleFilters
    (postEnv "USER@Example.com ") (postEnv "user@example.com")
    { email := some "USER@Example.com ", source := none }
    { email := some "user@example.com", source := none }
    "USER@Example.com " "user@example.com"
    rfl rfl rfl (by decide) rfl rfl rfl (by decide) (by decide) (by decide) (by decide) (by decide)
  exact h

/-- C7: every accepted submission stores, as its client address, the
trimmed first entry of the comma-separated forwarded-address header
when one is present, else the direct connection address, else the empty
fallback — replaced by the sentinel `unknown` whenever the IP filter
rejects the resulting value — and stores the client agent string
truncated to at most 200 characters. -/
theorem stored_address_and_agent (fl : Filters) (env : Env) (st : Option LedgerFile)
    (p : Payload) (raw : String)
    (hm : env.method = "POST") (hp : env.payload = some p) (he : p.email = some raw)
    (hv : fl.validEmail (normalizeEmail raw) = true)
    (hdup : emailStored st (normalizeEmail raw) = false)
    (hsz : fileSize st ≤ maxFileSize) :
    (fileRows (handleWaitlist fl env st).state).getLast? =
      some [normalizeEmail raw, env.now, p.source.getD "landing_page",
        (if fl.validIp (phpTrim ((explodeChar ','
              (env.xForwardedFor.getD (env.remoteAddr.getD ""))).headD ""))
         then phpTrim ((explodeChar ','
              (env.xForwardedFor.getD (env.remoteAddr.getD ""))).headD "")
         else "unknown"),
        truncate 200 (env.userAgent.getD "")] ∧
    (truncate 200 (env.userAgent.getD "")).length ≤ 200 := by
  constructor
  · rw [handleWaitlist_post_eq fl env st p raw hm hp he hv,
        processSubmission_accept_eq fl env st _ p hdup (not_lt.mpr hsz),
        acceptOutcome_state]
    simp only [fileRows, List.getLast?_append]
    simp [signupRow, clientIp]
  · show ((env.userAgent.getD "").data.take 200).length ≤ 200
    exact List.length_take_le 200 (env.userAgent.getD "").data

set_option maxRecDepth 1000000 in
/-- C7 (witness): a forwarded-address header with two entries and
whitespace around the first; the stored address is the trimmed first
entry, and a long agent string is cut to 200 characters. -/
theorem stored_address_and_agent_witness :
    (fileRows (handleWaitlist simpleFilters
        { method := "POST", payload := some { email := some "x@y.com", source := none },
          userAgent := some (String.mk (List.replicate 300 'a')),
          xForwardedFor := some " 203.0.113.7 , 198.51.100.9",
          remoteAddr := some "192.0.2.1", now := "2025-01-01 00:00:00" } none).state).getLast? =
      some ["x@y.com", "2025-01-01 00:00:00", "landing_page", "203.0.113.7",
        String.mk (List.replicate 200 'a')] ∧
    (truncate 200 ((some (String.mk (List.replicate 300 'a'))).getD "")).length ≤ 200 := by
  have h := stored_address_and_agent simpleFilters
    { method := "POST", payload := some { email := some "x@y.com", source := none },
      userAgent := some (String.mk (List.replicate 300 'a')),
      xForwardedFor := some " 203.0.113.7 , 198.51.100.9",
      remoteAddr := some "192.0.2.1", now := "2025-01-01 00:00:00" } none
    { email := some "x@y.com", source := none } "x@y.com"
    rfl rfl rfl (by decide) (by decide) (by decide)
  refine ⟨?_, h.2⟩
  rw [h.1]
  decide
